import Mathlib

/-!
Avanguard Index — fund accounting core, shallow embedding.

The repository ships only peripheral test and deploy code
(`packages/hardhat/test/AvalancheMainnetIntegration.test.ts`,
`packages/hardhat/deploy/00_deploy_avanguard_index.ts`); the Solidity
contracts (Fund, FundFactory, FundLedger, ProportionTable, oracle and
router adapters) are not part of the excerpt.  The definitions below are
therefore modelled from the specification (spec.md §3–§7), with the public
interface shapes cross-checked against the integration test.

Conventions of the embedding:
* Assets and holders are opaque `Nat` identifiers; asset `0` is the base
  currency (AVAX in the test).
* Prices are a function `Nat → Nat` (USD value per unit, fixed scaling).
* The swap router is a function `swap assetIn assetOut amountIn = amountOut`;
  swap failure modes (SlippageExceeded, InsufficientLiquidity) are not
  needed by any claim, so the router is modelled as total.
* Fallible operations return `Except FundError σ`; an `Except.error`
  result models a reverted call: no successor state exists, which is the
  embedding of "no partial state change is observable".
-/

/-- Modelled from the spec: the error taxonomy of §7. -/
inductive FundError where
  | ZeroAmount
  | InsufficientBalance
  | InvalidProportions
  | Unauthorized
  | PriceUnavailable
  | SlippageExceeded
  | InsufficientLiquidity
  | FeedNotConfigured
deriving Repr, DecidableEq

/-- The base-currency asset identifier (AVAX in the integration test). -/
def baseAsset : Nat := 0

/-- First-match lookup in an association list, defaulting to 0.
Used for share balances, holdings, target proportions and allowances. -/
def lookupAmt (l : List (Nat × Nat)) (k : Nat) : Nat :=
  match l with
  | [] => 0
  | (a, v) :: rest => if a = k then v else lookupAmt rest k

/-- Add `x` to the entry for `k` (appending a fresh entry when absent). -/
def addAmt (l : List (Nat × Nat)) (k : Nat) (x : Nat) : List (Nat × Nat) :=
  match l with
  | [] => [(k, x)]
  | (a, v) :: rest => if a = k then (a, v + x) :: rest else (a, v) :: addAmt rest k x

/-- Subtract `x` from the entry for `k` (truncated `Nat` subtraction; every
caller first checks `x ≤ lookupAmt l k`). -/
def subAmt (l : List (Nat × Nat)) (k : Nat) (x : Nat) : List (Nat × Nat) :=
  match l with
  | [] => []
  | (a, v) :: rest => if a = k then (a, v - x) :: rest else (a, v) :: subAmt rest k x

/-- Overwrite the entry for `k` with `x` (appending when absent). -/
def setAmt (l : List (Nat × Nat)) (k : Nat) (x : Nat) : List (Nat × Nat) :=
  match l with
  | [] => [(k, x)]
  | (a, v) :: rest => if a = k then (a, x) :: rest else (a, v) :: setAmt rest k x

/-- Sum of all amounts in an association list. -/
def sumAmt (l : List (Nat × Nat)) : Nat :=
  (l.map (fun p => p.2)).sum

/-- Modelled from the spec: the per-fund mutable aggregate of §3/§6 —
{name, ticker, creator, ProportionTable, Holdings map, share balances map,
total supply}, plus the share-token allowance granted to the fund itself,
whose existence the integration test exhibits (`fund.approve(fundAddress, …)`
before `sell`). -/
structure FundState where
  fundName : String
  fundTicker : String
  creator : Nat
  proportions : List (Nat × Nat)
  holdings : List (Nat × Nat)
  balances : List (Nat × Nat)
  allowances : List (Nat × Nat)
  totalSupply : Nat
deriving Repr, DecidableEq

/-- Sum of the weights of a proportion table. -/
def sumWeights (ps : List (Nat × Nat)) : Nat :=
  (ps.map (fun p => p.2)).sum

/-- Net asset value of a holdings map at given oracle prices
(spec §4.3 step 1: NAV = Σ holding[asset] × price[asset]). -/
def nav (prices : Nat → Nat) (holdings : List (Nat × Nat)) : Nat :=
  (holdings.map (fun p => p.2 * prices p.1)).sum

/-- Modelled from the spec (§4.3 step 2): split a deposit across the listed
weights by `portion = deposit × weight / 100`, allocating the integer
remainder of the split to the first listed asset. -/
def splitDeposit (d : Nat) (ws : List Nat) : List Nat :=
  let base := ws.map (fun w => d * w / 100)
  match base with
  | [] => []
  | p :: rest => (p + (d - (p :: rest).sum)) :: rest

/-- Modelled from the spec (§4.2): `setProportions(assets, weights)` checks
the two sequences have equal length and the weights sum to exactly 100
(otherwise InvalidProportions), then that the caller is the fund's creator
(otherwise Unauthorized), and atomically replaces the whole table.  The
spec's additional asset-subset precondition is not modelled: no claim
depends on it and the spec assigns it no error of its own. -/
def setProportions (caller : Nat) (assets : List Nat) (ws : List Nat)
    (s : FundState) : Except FundError FundState :=
  if assets.length = ws.length ∧ ws.sum = 100 then
    if caller = s.creator then
      .ok { s with proportions := assets.zip ws }
    else .error .Unauthorized
  else .error .InvalidProportions

/-- The amounts of each asset actually received from the router when a
deposit `d` is split per the fund's table and swapped leg by leg
(spec §4.3 step 3: the swap output, not the nominal portion, is recorded). -/
def buyReceived (swap : Nat → Nat → Nat → Nat) (s : FundState) (d : Nat) :
    List (Nat × Nat) :=
  ((s.proportions.map (fun p => p.1)).zip
      (splitDeposit d (s.proportions.map (fun p => p.2)))).map
    (fun q => (q.1, swap baseAsset q.1 q.2))

/-- Deposit value in USD computed from actually-received amounts × oracle
prices (spec §4.3 step 4). -/
def depositValue (prices : Nat → Nat) (swap : Nat → Nat → Nat → Nat)
    (s : FundState) (d : Nat) : Nat :=
  ((buyReceived swap s d).map (fun p => p.2 * prices p.1)).sum

/-- Shares minted for a deposit (spec §4.1): 1:1 with deposit value when the
fund is empty, otherwise `depositValue × totalSupply / NAV_beforeDeposit`. -/
def sharesFor (prices : Nat → Nat) (swap : Nat → Nat → Nat → Nat)
    (s : FundState) (d : Nat) : Nat :=
  if s.totalSupply = 0 then depositValue prices swap s d
  else depositValue prices swap s d * s.totalSupply / nav prices s.holdings

/-- Fold a list of received (asset, amount) pairs into a holdings map. -/
def addHoldings (holdings : List (Nat × Nat)) (recv : List (Nat × Nat)) :
    List (Nat × Nat) :=
  match recv with
  | [] => holdings
  | (a, x) :: rest => addHoldings (addAmt holdings a x) rest

/-- Modelled from the spec (§4.3): `buy(d)` rejects a zero deposit with
ZeroAmount; otherwise it splits the deposit per the table, swaps each
portion into its asset, records the received amounts into Holdings, and
mints `sharesFor` shares to the buyer.  An error result models the
all-or-nothing rollback of §4.3/§5. -/
def buy (prices : Nat → Nat) (swap : Nat → Nat → Nat → Nat)
    (holder : Nat) (d : Nat) (s : FundState) : Except FundError FundState :=
  if d = 0 then .error .ZeroAmount
  else
    let shares := sharesFor prices swap s d
    .ok { s with
      holdings := addHoldings s.holdings (buyReceived swap s d),
      balances := addAmt s.balances holder shares,
      totalSupply := s.totalSupply + shares }

/-- Modelled from the spec (§4.1): `FundLedger.burn` fails with
InsufficientBalance when the amount exceeds the holder's balance and
otherwise decreases both the holder's balance and the total supply. -/
def burn (holder : Nat) (amt : Nat) (s : FundState) :
    Except FundError FundState :=
  if lookupAmt s.balances holder < amt then .error .InsufficientBalance
  else .ok { s with
    balances := subAmt s.balances holder amt,
    totalSupply := s.totalSupply - amt }

/-- The pro-rata amount of each asset withdrawn by a redemption of `amt`
shares (spec §4.4 step 2: `Holding[asset] × amt / totalSupplyBeforeBurn`). -/
def sellWithdrawn (s : FundState) (amt : Nat) : List (Nat × Nat) :=
  s.holdings.map (fun p => (p.1, p.2 * amt / s.totalSupply))

/-- Base-currency proceeds of a redemption: each withdrawn slice swapped to
the base currency and accumulated (spec §4.4 step 2). -/
def sellProceeds (swap : Nat → Nat → Nat → Nat) (s : FundState) (amt : Nat) :
    Nat :=
  ((sellWithdrawn s amt).map (fun p => swap p.1 baseAsset p.2)).sum

/-- Modelled from the spec (§4.4): `sell(amt)` fails with
InsufficientBalance when `amt` exceeds the caller's balance; otherwise it
withdraws the exact pro-rata slice of every holding, swaps the slices to the
base currency, burns the shares, and returns the new state together with the
base-currency proceeds transferred to the caller. -/
def sell (swap : Nat → Nat → Nat → Nat) (holder : Nat) (amt : Nat)
    (s : FundState) : Except FundError (FundState × Nat) :=
  if lookupAmt s.balances holder < amt then .error .InsufficientBalance
  else
    .ok ({ s with
      holdings := s.holdings.map (fun p => (p.1, p.2 - p.2 * amt / s.totalSupply)),
      balances := subAmt s.balances holder amt,
      totalSupply := s.totalSupply - amt },
      sellProceeds swap s amt)

/-- Modelled from the spec / integration test: the share token's
`approve(spender, amt)`.  The test approves the fund contract itself as
spender of the caller's fund shares before calling `sell`; only the
fund-as-spender allowance is modelled. -/
def approveShares (holder : Nat) (amt : Nat) (s : FundState) : FundState :=
  { s with allowances := setAmt s.allowances holder amt }

/-- Modelled from the integration test: the public `sell` entry point pulls
the caller's shares transferFrom-style, so it additionally requires the
caller to have approved the fund itself as spender of at least `amt` shares,
and consumes that allowance on success. -/
def sellPublic (swap : Nat → Nat → Nat → Nat) (holder : Nat) (amt : Nat)
    (s : FundState) : Except FundError (FundState × Nat) :=
  if lookupAmt s.allowances holder < amt then .error .InsufficientBalance
  else
    match sell swap holder amt s with
    | .error e => .error e
    | .ok (s₁, proceeds) =>
      .ok ({ s₁ with allowances := subAmt s₁.allowances holder amt }, proceeds)

/-- Current USD value held in each asset, divided by 100: the unit in which
rebalance targets are expressed (`targetVal a = NAV × weight[a] / 100`,
spec §4.5 step 2). -/
def targetVal (prices : Nat → Nat) (s : FundState) (a : Nat) : Nat :=
  nav prices s.holdings * lookupAmt s.proportions a / 100

/-- The excess units a "decrease" asset must shed to fall back to its target
value (0 for assets at or below target), spec §4.5 step 3. -/
def excessUnits (prices : Nat → Nat) (s : FundState) (a : Nat) (h : Nat) :
    Nat :=
  if prices a = 0 then 0
  else (h * prices a - targetVal prices s a) / prices a

/-- USD deficit of an "increase" asset (0 for assets at or above target). -/
def deficitVal (prices : Nat → Nat) (s : FundState) (a : Nat) (h : Nat) :
    Nat :=
  targetVal prices s a - h * prices a

/-- Modelled from the spec (§4.5): rebalance values current Holdings, sheds
the excess of every over-weight asset into the base currency, then spends
the accumulated proceeds on the under-weight assets in proportion to their
USD deficits.  Only Holdings change: the ProportionTable and the whole
ledger (balances, allowances, total supply) are untouched.  The spec's
descending-|delta| leg ordering is modelled as table order: with a
deterministic router the ordering policy only redistributes slippage, which
no claim measures. -/
def rebalance (prices : Nat → Nat) (swap : Nat → Nat → Nat → Nat)
    (s : FundState) : FundState :=
  let shed := s.holdings.map (fun p => (p.1, excessUnits prices s p.1 p.2))
  let proceeds := (shed.map (fun p => swap p.1 baseAsset p.2)).sum
  let afterShed := s.holdings.map
    (fun p => (p.1, p.2 - excessUnits prices s p.1 p.2))
  let deficits := s.holdings.map (fun p => (p.1, deficitVal prices s p.1 p.2))
  let totalDeficit := sumAmt deficits
  let bought := deficits.map
    (fun p => (p.1, swap baseAsset p.1 (proceeds * p.2 / totalDeficit)))
  { s with holdings := addHoldings afterShed bought }

/-- Modelled from the spec (§2/§6): the factory's registry of created funds
and the AGI-token creation fee, with each creator's fee allowance granted to
the factory (the test mints the fee to the user and approves the factory
before `createFund`). -/
structure FactoryState where
  funds : List FundState
  creationFee : Nat
  feeAllowance : List (Nat × Nat)
deriving Repr, DecidableEq

/-- Even integer split of 100 percentage points over `n` slots, the integer
remainder going to the first slot so the weights always sum to 100. -/
def evenWeights : Nat → List Nat
  | 0 => []
  | n + 1 => (100 / (n + 1) + 100 % (n + 1)) :: List.replicate n (100 / (n + 1))

/-- Modelled from the spec (§3 lifecycle): a freshly created fund has zero
supply and holdings and an initial ProportionTable over the given tokens;
the initial table splits 100 as evenly as integer weights allow, any
remainder going to the first token so the table sums to 100. -/
def newFund (name ticker : String) (creator : Nat) (tokens : List Nat) :
    FundState :=
  { fundName := name
    fundTicker := ticker
    creator := creator
    proportions := tokens.zip (evenWeights tokens.length)
    holdings := tokens.map (fun t => (t, 0))
    balances := []
    allowances := []
    totalSupply := 0 }

/-- Modelled from the spec (§6) and the integration test:
`createFund(name, ticker, tokens)` charges the creation fee from the
caller's approved fee-token allowance and appends exactly one new fund,
whose creator is the caller, to the registry. -/
def createFund (caller : Nat) (name ticker : String) (tokens : List Nat)
    (fs : FactoryState) : Except FundError FactoryState :=
  if lookupAmt fs.feeAllowance caller < fs.creationFee then
    .error .InsufficientBalance
  else
    .ok { fs with
      funds := fs.funds ++ [newFund name ticker caller tokens],
      feeAllowance := subAmt fs.feeAllowance caller fs.creationFee }

/-- Number of funds the factory has created (`getTotalFunds`). -/
def getTotalFunds (fs : FactoryState) : Nat :=
  fs.funds.length

/-- USD value lost to the router across a full set of redemption legs: per
leg, the oracle value of the withdrawn slice minus the oracle value of the
base currency the router returned for it (spec §8: "swap costs"). -/
def swapCost (prices : Nat → Nat) (swap : Nat → Nat → Nat → Nat)
    (s : FundState) (amt : Nat) : Int :=
  ((sellWithdrawn s amt).map
    (fun p => (p.2 * prices p.1 : Int) -
      (swap p.1 baseAsset p.2 * prices baseAsset : Int))).sum

/-- The states a single fund can reach: a fresh fund, then any sequence of
the public operations (successful buy, sell — internal or via the public
allowance-checked entry point —, setProportions, rebalance, approvals),
each possibly under different oracle prices and router behaviour. -/
inductive Reach : FundState → Prop where
  | init (name ticker : String) (creator : Nat) (tokens : List Nat) :
      Reach (newFund name ticker creator tokens)
  | buyStep (s : FundState) (prices : Nat → Nat) (swap : Nat → Nat → Nat → Nat)
      (holder d : Nat) (s' : FundState) : Reach s →
      buy prices swap holder d s = .ok s' → Reach s'
  | sellStep (s : FundState) (swap : Nat → Nat → Nat → Nat)
      (holder amt : Nat) (s' : FundState) (pr : Nat) : Reach s →
      sell swap holder amt s = .ok (s', pr) → Reach s'
  | sellPublicStep (s : FundState) (swap : Nat → Nat → Nat → Nat)
      (holder amt : Nat) (s' : FundState) (pr : Nat) : Reach s →
      sellPublic swap holder amt s = .ok (s', pr) → Reach s'
  | setPropsStep (s : FundState) (caller : Nat) (assets ws : List Nat)
      (s' : FundState) : Reach s →
      setProportions caller assets ws s = .ok s' → Reach s'
  | rebalanceStep (s : FundState) (prices : Nat → Nat)
      (swap : Nat → Nat → Nat → Nat) : Reach s →
      Reach (rebalance prices swap s)
  | approveStep (s : FundState) (holder amt : Nat) : Reach s →
      Reach (approveShares holder amt s)

/-- Oracle assigning every asset the price 1 (test scenario: A=$1, B=$1). -/
def unitPrices : Nat → Nat := fun _ => 1

/-- A frictionless router: output amount equals input amount (exact for the
all-prices-1 scenario; zero swap cost). -/
def idealSwap : Nat → Nat → Nat → Nat := fun _ _ x => x

/-- The spec §8 scenario fund: empty state, targets {A:50, B:50} with
assets A = 1 and B = 2. -/
def scenarioFund : FundState :=
  { fundName := "Test Fund Multi-Asset"
    fundTicker := "TFMA"
    creator := 7
    proportions := [(1, 50), (2, 50)]
    holdings := [(1, 0), (2, 0)]
    balances := []
    allowances := []
    totalSupply := 0 }

/-- The scenario fund after the first buy of 100 base units by holder 10. -/
def scenarioAfter1 : FundState :=
  match buy unitPrices idealSwap 10 100 scenarioFund with
  | .ok s => s
  | .error _ => scenarioFund

/-- The scenario fund after a second buy of 100 base units by holder 11. -/
def scenarioAfter2 : FundState :=
  match buy unitPrices idealSwap 11 100 scenarioAfter1 with
  | .ok s => s
  | .error _ => scenarioAfter1

/-- A concrete single-holder fund used to instantiate the redemption
theorems: holder 5 owns the whole supply of 100 shares over holdings of
30 units of asset 1 and 70 units of asset 2. -/
def soleHolderFund : FundState :=
  { fundName := "W"
    fundTicker := "W"
    creator := 3
    proportions := [(1, 100)]
    holdings := [(1, 30), (2, 70)]
    balances := [(5, 100)]
    allowances := []
    totalSupply := 100 }

/-- A concrete factory state: creation fee 10, caller 4 has approved
exactly the fee. -/
def readyFactory : FactoryState :=
  { funds := []
    creationFee := 10
    feeAllowance := [(4, 10)] }

/-- The scenario fund after its creator replaces the table with the test's
40/30/20/10 target over four assets. -/
def scenarioReweighted : FundState :=
  match setProportions 7 [1, 2, 3, 4] [40, 30, 20, 10] scenarioFund with
  | .ok s => s
  | .error _ => scenarioFund

/-- Adding to an association list adds to its total. -/
theorem sumAmt_addAmt (l : List (Nat × Nat)) (k x : Nat) :
    sumAmt (addAmt l k x) = sumAmt l + x := by
  induction l with
  | nil => simp [addAmt, sumAmt]
  | cons p rest ih =>
    by_cases h : p.1 = k
    · simp [addAmt, h, sumAmt]
      omega
    · simp only [addAmt, h, if_false, sumAmt, List.map_cons, List.sum_cons]
      simp only [sumAmt] at ih
      omega

/-- A single balance never exceeds the total of the list. -/
theorem lookupAmt_le_sumAmt (l : List (Nat × Nat)) (k : Nat) :
    lookupAmt l k ≤ sumAmt l := by
  induction l with
  | nil => simp [lookupAmt, sumAmt]
  | cons p rest ih =>
    by_cases h : p.1 = k
    · simp [lookupAmt, h, sumAmt]
    · simp only [lookupAmt, h, if_false, sumAmt, List.map_cons, List.sum_cons]
      simp only [sumAmt] at ih
      omega

/-- Subtracting a covered amount subtracts it from the total. -/
theorem sumAmt_subAmt (l : List (Nat × Nat)) (k x : Nat)
    (hx : x ≤ lookupAmt l k) : sumAmt (subAmt l k x) = sumAmt l - x := by
  induction l with
  | nil => simp [subAmt, sumAmt, lookupAmt] at *
  | cons p rest ih =>
    by_cases h : p.1 = k
    · simp only [lookupAmt, h, if_true] at hx
      simp only [subAmt, h, if_true, sumAmt, List.map_cons, List.sum_cons]
      omega
    · simp only [lookupAmt, h, if_false] at hx
      have hle := lookupAmt_le_sumAmt rest k
      simp only [sumAmt] at hle ih
      simp only [subAmt, h, if_false, sumAmt, List.map_cons, List.sum_cons]
      rw [ih hx]
      omega

/-- Reading back the key just added. -/
theorem lookupAmt_addAmt_self (l : List (Nat × Nat)) (k x : Nat) :
    lookupAmt (addAmt l k x) k = lookupAmt l k + x := by
  induction l with
  | nil => simp [addAmt, lookupAmt]
  | cons p rest ih =>
    by_cases h : p.1 = k
    · simp [addAmt, h, lookupAmt]
    · simp [addAmt, h, lookupAmt, ih]

/-- Reading back the key just subtracted from. -/
theorem lookupAmt_subAmt_self (l : List (Nat × Nat)) (k x : Nat) :
    lookupAmt (subAmt l k x) k = lookupAmt l k - x := by
  induction l with
  | nil => simp [subAmt, lookupAmt]
  | cons p rest ih =>
    by_cases h : p.1 = k
    · simp [subAmt, h, lookupAmt]
    · simp [subAmt, h, lookupAmt, ih]

/-- Reading back the key just overwritten. -/
theorem lookupAmt_setAmt_self (l : List (Nat × Nat)) (k x : Nat) :
    lookupAmt (setAmt l k x) k = x := by
  induction l with
  | nil => simp [setAmt, lookupAmt]
  | cons p rest ih =>
    by_cases h : p.1 = k
    · simp [setAmt, h, lookupAmt]
    · simp [setAmt, h, lookupAmt, ih]

/-- Integer division distributes sub-additively over addition. -/
theorem add_div_le_div_add (a b c : Nat) : a / c + b / c ≤ (a + b) / c := by
  rcases Nat.eq_zero_or_pos c with h | h
  · simp [h]
  · rw [Nat.le_div_iff_mul_le h, Nat.add_mul]
    exact Nat.add_le_add (Nat.div_mul_le_self a c) (Nat.div_mul_le_self b c)

/-- A sum of floored quotients is at most the floored quotient of the sum. -/
theorem sum_map_div_le (xs : List Nat) (c : Nat) :
    (xs.map (fun x => x / c)).sum ≤ xs.sum / c := by
  induction xs with
  | nil => simp
  | cons x rest ih =>
    simp only [List.map_cons, List.sum_cons]
    calc x / c + (rest.map (fun x => x / c)).sum ≤ x / c + rest.sum / c := by
          omega
      _ ≤ (x + rest.sum) / c := add_div_le_div_add _ _ _

/-- Scalar multiplication distributes over a list sum. -/
theorem sum_map_mul_const (d : Nat) (ws : List Nat) :
    (ws.map (fun w => d * w)).sum = d * ws.sum := by
  induction ws with
  | nil => simp
  | cons w rest ih => simp [ih, Nat.mul_add]

/-- With weights summing to 100, the truncated portions cannot exceed the
deposit. -/
theorem portions_sum_le (d : Nat) (ws : List Nat) (h : ws.sum = 100) :
    (ws.map (fun w => d * w / 100)).sum ≤ d := by
  have h1 : (ws.map (fun w => d * w / 100)).sum
      = ((ws.map (fun w => d * w)).map (fun x => x / 100)).sum := by
    simp [List.map_map, Function.comp_def]
  calc (ws.map (fun w => d * w / 100)).sum
      = ((ws.map (fun w => d * w)).map (fun x => x / 100)).sum := h1
    _ ≤ (ws.map (fun w => d * w)).sum / 100 := sum_map_div_le _ _
    _ = d * ws.sum / 100 := by rw [sum_map_mul_const]
    _ = d := by rw [h]; simp [Nat.mul_div_cancel]

/-- Characterization of a successful buy: the deposit was nonzero and the
result is exactly the holdings/mint update of §4.3. -/
theorem buy_ok_iff (prices : Nat → Nat) (swap : Nat → Nat → Nat → Nat)
    (holder d : Nat) (s s' : FundState) :
    buy prices swap holder d s = .ok s' ↔
      d ≠ 0 ∧ s' = { s with
        holdings := addHoldings s.holdings (buyReceived swap s d),
        balances := addAmt s.balances holder (sharesFor prices swap s d),
        totalSupply := s.totalSupply + sharesFor prices swap s d } := by
  constructor
  · intro h
    by_cases hd : d = 0
    · simp [buy, hd] at h
    · simp only [buy, hd, if_false, Except.ok.injEq] at h
      exact ⟨hd, h.symm⟩
  · rintro ⟨hd, rfl⟩
    simp [buy, hd]

/-- Characterization of a successful sell: the amount was covered by the
caller's balance and the result is exactly the pro-rata withdrawal, burn
and proceeds of §4.4. -/
theorem sell_ok_iff (swap : Nat → Nat → Nat → Nat) (holder amt : Nat)
    (s s' : FundState) (pr : Nat) :
    sell swap holder amt s = .ok (s', pr) ↔
      amt ≤ lookupAmt s.balances holder ∧
      s' = { s with
        holdings := s.holdings.map
          (fun p => (p.1, p.2 - p.2 * amt / s.totalSupply)),
        balances := subAmt s.balances holder amt,
        totalSupply := s.totalSupply - amt } ∧
      pr = sellProceeds swap s amt := by
  constructor
  · intro h
    by_cases hlt : lookupAmt s.balances holder < amt
    · simp [sell, hlt] at h
    · simp only [sell, hlt, if_false, Except.ok.injEq, Prod.mk.injEq] at h
      exact ⟨Nat.not_lt.mp hlt, h.1.symm, h.2.symm⟩
  · rintro ⟨hle, rfl, rfl⟩
    simp [sell, Nat.not_lt.mpr hle]

/-- Characterization of a successful setProportions: both preconditions and
the authorization held, and the table was replaced wholesale. -/
theorem setProportions_ok_iff (caller : Nat) (assets ws : List Nat)
    (s s' : FundState) :
    setProportions caller assets ws s = .ok s' ↔
      assets.length = ws.length ∧ ws.sum = 100 ∧ caller = s.creator ∧
      s' = { s with proportions := assets.zip ws } := by
  constructor
  · intro h
    by_cases h1 : assets.length = ws.length ∧ ws.sum = 100
    · by_cases h2 : caller = s.creator
      · simp only [setProportions] at h
        rw [if_pos h1, if_pos h2] at h
        injection h with h3
        exact ⟨h1.1, h1.2, h2, h3.symm⟩
      · simp [setProportions, h1, h2] at h
    · simp [setProportions, h1] at h
  · rintro ⟨h1, h2, h3, rfl⟩
    simp [setProportions, h1, h2, h3]

/-- Characterization of a successful public sell: the allowance covered the
amount, the internal sell succeeded, and only the allowance was
additionally consumed. -/
theorem sellPublic_ok_iff (swap : Nat → Nat → Nat → Nat) (holder amt : Nat)
    (s s' : FundState) (pr : Nat) :
    sellPublic swap holder amt s = .ok (s', pr) ↔
      amt ≤ lookupAmt s.allowances holder ∧
      ∃ s₁, sell swap holder amt s = .ok (s₁, pr) ∧
        s' = { s₁ with allowances := subAmt s₁.allowances holder amt } := by
  constructor
  · intro h
    by_cases hlt : lookupAmt s.allowances holder < amt
    · simp [sellPublic, hlt] at h
    · simp only [sellPublic, hlt, if_false] at h
      rcases hs : sell swap holder amt s with e | ⟨s₁, pr₁⟩
      · rw [hs] at h
        exact Except.noConfusion h
      · rw [hs] at h
        simp only [Except.ok.injEq, Prod.mk.injEq] at h
        obtain ⟨h1, h2⟩ := h
        subst h2
        exact ⟨Nat.not_lt.mp hlt, s₁, rfl, h1.symm⟩
  · rintro ⟨hle, s₁, hs, rfl⟩
    simp [sellPublic, Nat.not_lt.mpr hle, hs]

/-- In every reachable fund state the total share supply equals the sum of
all holders' balances: the FundLedger accounting identity of §3, preserved
by every operation. -/
theorem reach_supply_eq_sum (s : FundState) (h : Reach s) :
    s.totalSupply = sumAmt s.balances := by
  induction h with
  | init name ticker creator tokens => simp [newFund, sumAmt]
  | buyStep s prices swap holder d s' _ hok ih =>
    obtain ⟨-, rfl⟩ := (buy_ok_iff prices swap holder d s s').mp hok
    simpa [sumAmt_addAmt] using ih
  | sellStep s swap holder amt s' pr _ hok ih =>
    obtain ⟨hle, rfl, -⟩ := (sell_ok_iff swap holder amt s s' pr).mp hok
    have hsum := sumAmt_subAmt s.balances holder amt hle
    simp only [hsum]
    omega
  | sellPublicStep s swap holder amt s' pr _ hok ih =>
    obtain ⟨-, s₁, hsell, rfl⟩ := (sellPublic_ok_iff swap holder amt s s' pr).mp hok
    obtain ⟨hle, rfl, -⟩ := (sell_ok_iff swap holder amt s s₁ pr).mp hsell
    have hsum := sumAmt_subAmt s.balances holder amt hle
    simp only [hsum]
    omega
  | setPropsStep s caller assets ws s' _ hok ih =>
    obtain ⟨-, -, -, rfl⟩ := (setProportions_ok_iff caller assets ws s s').mp hok
    exact ih
  | rebalanceStep s prices swap _ ih => exact ih
  | approveStep s holder amt _ ih => exact ih

/-- Looking anything up in a holdings map whose amounts were all zeroed
gives zero. -/
theorem lookupAmt_map_zero (l : List (Nat × Nat)) (k : Nat) :
    lookupAmt (l.map (fun p => (p.1, 0))) k = 0 := by
  induction l with
  | nil => simp [lookupAmt]
  | cons p rest ih =>
    by_cases h : p.1 = k
    · simp [lookupAmt, h]
    · simp [lookupAmt, h, ih]

/-- Value decomposition of a full liquidation: the oracle value of a
holdings list equals the base-currency proceeds of swapping every holding,
valued at the base price, plus the per-leg valuation shortfalls. -/
theorem nav_decompose (prices : Nat → Nat) (swap : Nat → Nat → Nat → Nat)
    (l : List (Nat × Nat)) :
    (nav prices l : Int)
      = ((l.map (fun p => swap p.1 baseAsset p.2)).sum : Int)
          * (prices baseAsset : Int)
        + (l.map (fun p => (p.2 * prices p.1 : Int)
            - (swap p.1 baseAsset p.2 * prices baseAsset : Int))).sum := by
  induction l with
  | nil => simp [nav]
  | cons p rest ih =>
    simp only [nav, List.map_cons, List.sum_cons] at ih ⊢
    push_cast at ih ⊢
    ring_nf
    ring_nf at ih
    linarith

/-- C7: for every buy deposit `d` split over a nonempty weight list summing
to 100, the portion routed into each non-first asset is exactly
`d × w / 100` under integer division, the integer remainder left by the
division is allocated on top of the first listed asset's own
`d × w / 100`, and the sum of all portions equals `d` exactly (no
under-deployment). -/
theorem splitDeposit_remainder_to_first (d w : Nat) (rest : List Nat)
    (h : (w :: rest).sum = 100) :
    splitDeposit d (w :: rest)
      = (d * w / 100 + (d - ((w :: rest).map (fun x => d * x / 100)).sum))
        :: rest.map (fun x => d * x / 100)
    ∧ (splitDeposit d (w :: rest)).sum = d := by
  have hle := portions_sum_le d (w :: rest) h
  constructor
  · rfl
  · simp only [splitDeposit, List.map_cons, List.sum_cons] at hle ⊢
    omega

/-- C7 witness: splitting 103 over weights 40/30/20/10 gives portions
41/30/20/10 (the division remainder 3 goes on top of the first asset's 38),
summing to 103. -/
theorem splitDeposit_remainder_to_first_witness :
    ((40 : Nat) :: [30, 20, 10]).sum = 100
    ∧ (splitDeposit 103 (40 :: [30, 20, 10])
        = (103 * 40 / 100
            + (103 - (((40 : Nat) :: [30, 20, 10]).map
                (fun x => 103 * x / 100)).sum))
          :: [30, 20, 10].map (fun x => 103 * x / 100)
      ∧ (splitDeposit 103 (40 :: [30, 20, 10])).sum = 103) :=
  ⟨by decide, splitDeposit_remainder_to_first 103 40 [30, 20, 10] (by decide)⟩

/-- C5: for every fund state, oracle, router and caller, buying 0 fails
with ZeroAmount; the error result carries no successor state, so the
ProportionTable, Holdings, balances and total supply of the failed call's
fund are untouched. -/
theorem buy_zero_rejected (prices : Nat → Nat) (swap : Nat → Nat → Nat → Nat)
    (holder : Nat) (s : FundState) :
    buy prices swap holder 0 s = .error .ZeroAmount := by
  simp [buy]

/-- C3: every setProportions call whose weights do not sum to 100, or whose
asset and weight sequences have different lengths, fails with
InvalidProportions; the error carries no successor state, so the previously
active ProportionTable remains in force and no partial replacement is
observable. -/
theorem setProportions_invalid_rejected (caller : Nat) (assets ws : List Nat)
    (s : FundState) (h : ws.sum ≠ 100 ∨ assets.length ≠ ws.length) :
    setProportions caller assets ws s = .error .InvalidProportions := by
  have hn : ¬(assets.length = ws.length ∧ ws.sum = 100) := by tauto
  simp [setProportions, hn]

/-- C3 witness: the creator calling setProportions with weights 60/50
(summing to 110) on the scenario fund is rejected with InvalidProportions. -/
theorem setProportions_invalid_rejected_witness :
    (([60, 50] : List Nat).sum ≠ 100 ∨ ([1, 2] : List Nat).length ≠ ([60, 50] : List Nat).length)
    ∧ setProportions 7 [1, 2] [60, 50] scenarioFund = .error .InvalidProportions :=
  ⟨by decide, setProportions_invalid_rejected 7 [1, 2] [60, 50] scenarioFund (by decide)⟩

/-- C4: after every successful setProportions the active table's weights
sum to exactly 100, and the invariant is preserved by every other
operation: buy and sell leave the table untouched, rebalance leaves the
table untouched, and setProportions replaces it atomically with another
table summing to 100. -/
theorem proportion_table_sums_to_100 :
    (∀ (caller : Nat) (assets ws : List Nat) (s s' : FundState),
        setProportions caller assets ws s = .ok s' →
        sumWeights s'.proportions = 100)
    ∧ (∀ (prices : Nat → Nat) (swap : Nat → Nat → Nat → Nat)
          (holder d : Nat) (s s' : FundState),
        buy prices swap holder d s = .ok s' → s'.proportions = s.proportions)
    ∧ (∀ (swap : Nat → Nat → Nat → Nat) (holder amt : Nat)
          (s s' : FundState) (pr : Nat),
        sell swap holder amt s = .ok (s', pr) → s'.proportions = s.proportions)
    ∧ (∀ (prices : Nat → Nat) (swap : Nat → Nat → Nat → Nat) (s : FundState),
        (rebalance prices swap s).proportions = s.proportions) := by
  refine ⟨?_, ?_, ?_, ?_⟩
  · intro caller assets ws s s' h
    obtain ⟨hlen, hsum, -, rfl⟩ := (setProportions_ok_iff caller assets ws s s').mp h
    have hzip : (assets.zip ws).map (fun p => p.2) = ws := by
      have := List.map_snd_zip assets ws (le_of_eq hlen.symm)
      simpa using this
    simp [sumWeights, hzip, hsum]
  · intro prices swap holder d s s' h
    obtain ⟨-, rfl⟩ := (buy_ok_iff prices swap holder d s s').mp h
    rfl
  · intro swap holder amt s s' pr h
    obtain ⟨-, rfl, -⟩ := (sell_ok_iff swap holder amt s s' pr).mp h
    rfl
  · intro prices swap s
    rfl

/-- C4 witness: the test's 40/30/20/10 reweighting of the scenario fund
succeeds and the resulting table sums to exactly 100. -/
theorem proportion_table_sums_to_100_witness :
    sumWeights scenarioReweighted.proportions = 100 :=
  proportion_table_sums_to_100.1 7 [1, 2, 3, 4] [40, 30, 20, 10]
    scenarioFund scenarioReweighted (by rfl)

/-- C6: burn fails with InsufficientBalance whenever the share amount
exceeds the holder's balance, leaving no successor state; otherwise it
decreases both the holder's balance and the total supply by exactly the
share amount — the recovered-addition equations rule out any truncation, so
a balance can never go below zero — and in every reachable state the supply
subtraction is exact as well, for any covered amount. -/
theorem burn_insufficient_guard (holder amt : Nat) (s : FundState) :
    (lookupAmt s.balances holder < amt →
      burn holder amt s = .error .InsufficientBalance)
    ∧ (amt ≤ lookupAmt s.balances holder →
        burn holder amt s = .ok { s with
            balances := subAmt s.balances holder amt,
            totalSupply := s.totalSupply - amt }
        ∧ lookupAmt (subAmt s.balances holder amt) holder + amt
            = lookupAmt s.balances holder)
    ∧ (Reach s → amt ≤ lookupAmt s.balances holder →
        (s.totalSupply - amt) + amt = s.totalSupply) := by
  refine ⟨?_, ?_, ?_⟩
  · intro h
    simp [burn, h]
  · intro h
    refine ⟨by simp [burn, Nat.not_lt.mpr h], ?_⟩
    rw [lookupAmt_subAmt_self]
    omega
  · intro hr h
    have hsum := reach_supply_eq_sum s hr
    have hle := lookupAmt_le_sumAmt s.balances holder
    omega

/-- C6 witness: in the reachable scenario fund after one buy, burning 40 of
holder 10's 100 shares succeeds with exact arithmetic, and the supply
subtraction is exact. -/
theorem burn_insufficient_guard_witness :
    burn 10 200 scenarioAfter1 = .error .InsufficientBalance
    ∧ (burn 10 40 scenarioAfter1 = .ok { scenarioAfter1 with
          balances := subAmt scenarioAfter1.balances 10 40,
          totalSupply := scenarioAfter1.totalSupply - 40 }
        ∧ lookupAmt (subAmt scenarioAfter1.balances 10 40) 10 + 40
            = lookupAmt scenarioAfter1.balances 10)
    ∧ (scenarioAfter1.totalSupply - 40) + 40 = scenarioAfter1.totalSupply := by
  have hreach : Reach scenarioAfter1 :=
    Reach.buyStep scenarioFund unitPrices idealSwap 10 100 scenarioAfter1
      (by
        have : scenarioFund = newFund "Test Fund Multi-Asset" "TFMA" 7 [1, 2] := by decide
        rw [this]
        exact Reach.init "Test Fund Multi-Asset" "TFMA" 7 [1, 2])
      (by rfl)
  refine ⟨?_, ?_, ?_⟩
  · exact (burn_insufficient_guard 10 200 scenarioAfter1).1 (by decide)
  · exact (burn_insufficient_guard 10 40 scenarioAfter1).2.1 (by decide)
  · exact (burn_insufficient_guard 10 40 scenarioAfter1).2.2 hreach (by decide)

/-- C8: in every reachable fund state the total supply equals the sum of
all holders' share balances; rebalance leaves every balance and the supply
unchanged, setProportions leaves every balance and the supply unchanged,
and share approvals leave them unchanged too — so supply and balances move
only through buy's mint and sell's burn. -/
theorem supply_equals_balance_sum :
    (∀ s : FundState, Reach s → s.totalSupply = sumAmt s.balances)
    ∧ (∀ (prices : Nat → Nat) (swap : Nat → Nat → Nat → Nat) (s : FundState),
        (rebalance prices swap s).balances = s.balances
        ∧ (rebalance prices swap s).totalSupply = s.totalSupply)
    ∧ (∀ (caller : Nat) (assets ws : List Nat) (s s' : FundState),
        setProportions caller assets ws s = .ok s' →
        s'.balances = s.balances ∧ s'.totalSupply = s.totalSupply)
    ∧ (∀ (holder amt : Nat) (s : FundState),
        (approveShares holder amt s).balances = s.balances
        ∧ (approveShares holder amt s).totalSupply = s.totalSupply) := by
  refine ⟨reach_supply_eq_sum, fun _ _ _ => ⟨rfl, rfl⟩, ?_, fun _ _ _ => ⟨rfl, rfl⟩⟩
  intro caller assets ws s s' h
  obtain ⟨-, -, -, rfl⟩ := (setProportions_ok_iff caller assets ws s s').mp h
  exact ⟨rfl, rfl⟩

/-- C8 witness: the invariant instantiated at a concrete reachable state —
a freshly created 2-asset fund, whose supply 0 equals the sum of its empty
balance map — and the setProportions frame property at the scenario
reweighting. -/
theorem supply_equals_balance_sum_witness :
    (newFund "Test Fund Multi-Asset" "TFMA" 7 [1, 2]).totalSupply
      = sumAmt (newFund "Test Fund Multi-Asset" "TFMA" 7 [1, 2]).balances
    ∧ (scenarioReweighted.balances = scenarioFund.balances
        ∧ scenarioReweighted.totalSupply = scenarioFund.totalSupply) :=
  ⟨supply_equals_balance_sum.1 (newFund "Test Fund Multi-Asset" "TFMA" 7 [1, 2])
      (Reach.init "Test Fund Multi-Asset" "TFMA" 7 [1, 2]),
    supply_equals_balance_sum.2.2.1 7 [1, 2, 3, 4] [40, 30, 20, 10]
      scenarioFund scenarioReweighted (by rfl)⟩

/-- C1: every successful buy mints `sharesFor` shares to the buyer and adds
them to the supply, where `sharesFor` is the deposit value (computed from
actually-received swap amounts times oracle prices) 1:1 when the pre-buy
supply is zero and `depositValue × totalSupply / NAV_beforeDeposit`
otherwise; and in the concrete empty-fund scenario with targets
{A:50, B:50} and both prices $1, buy(100) yields 50 units of each asset and
mints 100 shares, and a second buy(100) mints another 100 for a supply of
200, each buyer holding 100. -/
theorem buy_share_issuance :
    (∀ (prices : Nat → Nat) (swap : Nat → Nat → Nat → Nat)
        (holder d : Nat) (s s' : FundState),
      buy prices swap holder d s = .ok s' →
      lookupAmt s'.balances holder
          = lookupAmt s.balances holder + sharesFor prices swap s d
      ∧ s'.totalSupply = s.totalSupply + sharesFor prices swap s d
      ∧ (s.totalSupply = 0 →
          sharesFor prices swap s d = depositValue prices swap s d)
      ∧ (0 < s.totalSupply →
          sharesFor prices swap s d
            = depositValue prices swap s d * s.totalSupply
                / nav prices s.holdings))
    ∧ buy unitPrices idealSwap 10 100 scenarioFund = .ok scenarioAfter1
    ∧ scenarioAfter1.totalSupply = 100
    ∧ lookupAmt scenarioAfter1.holdings 1 = 50
    ∧ lookupAmt scenarioAfter1.holdings 2 = 50
    ∧ lookupAmt scenarioAfter1.balances 10 = 100
    ∧ buy unitPrices idealSwap 11 100 scenarioAfter1 = .ok scenarioAfter2
    ∧ scenarioAfter2.totalSupply = 200
    ∧ lookupAmt scenarioAfter2.balances 10 = 100
    ∧ lookupAmt scenarioAfter2.balances 11 = 100 := by
  refine ⟨?_, by rfl, by decide, by decide, by decide, by decide,
    by rfl, by decide, by decide, by decide⟩
  intro prices swap holder d s s' h
  obtain ⟨-, rfl⟩ := (buy_ok_iff prices swap holder d s s').mp h
  refine ⟨lookupAmt_addAmt_self s.balances holder _, rfl, ?_, ?_⟩
  · intro h0
    simp [sharesFor, h0]
  · intro hpos
    have h0 : s.totalSupply ≠ 0 := Nat.pos_iff_ne_zero.mp hpos
    simp [sharesFor, h0]

/-- C1 witness: the share-issuance formula instantiated at the second
scenario buy, whose pre-buy supply 100 is positive. -/
theorem buy_share_issuance_witness :
    lookupAmt scenarioAfter2.balances 11
        = lookupAmt scenarioAfter1.balances 11
          + sharesFor unitPrices idealSwap scenarioAfter1 100
    ∧ scenarioAfter2.totalSupply
        = scenarioAfter1.totalSupply
          + sharesFor unitPrices idealSwap scenarioAfter1 100
    ∧ sharesFor unitPrices idealSwap scenarioAfter1 100
        = depositValue unitPrices idealSwap scenarioAfter1 100
            * scenarioAfter1.totalSupply
            / nav unitPrices scenarioAfter1.holdings :=
  have h := buy_share_issuance.1 unitPrices idealSwap 11 100 scenarioAfter1
    scenarioAfter2 (by rfl)
  ⟨h.1, h.2.1, h.2.2.2 (by decide)⟩

/-- C2: for every fund state with positive supply whose caller holds the
whole supply, selling 100% of the supply succeeds, drives every Holding to
exactly zero, zeroes the caller's share balance and the supply, and pays
out base-currency proceeds whose oracle value equals the fund's NAV at that
moment minus the per-leg swap costs. -/
theorem sell_full_redemption (prices : Nat → Nat)
    (swap : Nat → Nat → Nat → Nat) (holder : Nat) (s : FundState)
    (hpos : 0 < s.totalSupply)
    (hall : lookupAmt s.balances holder = s.totalSupply) :
    sell swap holder s.totalSupply s
      = .ok ({ s with
          holdings := s.holdings.map (fun p => (p.1, 0)),
          balances := subAmt s.balances holder s.totalSupply,
          totalSupply := 0 }, sellProceeds swap s s.totalSupply)
    ∧ (∀ a, lookupAmt (s.holdings.map (fun p => (p.1, 0))) a = 0)
    ∧ lookupAmt (subAmt s.balances holder s.totalSupply) holder = 0
    ∧ (nav prices s.holdings : Int)
        = (sellProceeds swap s s.totalSupply : Int)
            * (prices baseAsset : Int)
          + swapCost prices swap s s.totalSupply := by
  have hfun : (fun p : Nat × Nat =>
        (p.1, p.2 - p.2 * s.totalSupply / s.totalSupply))
      = fun p : Nat × Nat => (p.1, 0) := by
    funext p
    rw [Nat.mul_div_cancel p.2 hpos]
    simp
  have hw : sellWithdrawn s s.totalSupply = s.holdings := by
    have hval : (fun p : Nat × Nat => (p.1, p.2 * s.totalSupply / s.totalSupply))
        = fun p : Nat × Nat => p := by
      funext p
      rw [Nat.mul_div_cancel p.2 hpos]
    simp only [sellWithdrawn, hval, List.map_id']
  refine ⟨?_, lookupAmt_map_zero s.holdings, ?_, ?_⟩
  · refine (sell_ok_iff swap holder s.totalSupply s _ _).mpr ⟨by omega, ?_, rfl⟩
    rw [hfun, Nat.sub_self]
  · rw [lookupAmt_subAmt_self, hall, Nat.sub_self]
  · have h1 : sellProceeds swap s s.totalSupply
        = (s.holdings.map (fun p => swap p.1 baseAsset p.2)).sum := by
      simp only [sellProceeds, hw]
    have h2 : swapCost prices swap s s.totalSupply
        = (s.holdings.map (fun p => (p.2 * prices p.1 : Int)
            - (swap p.1 baseAsset p.2 * prices baseAsset : Int))).sum := by
      simp only [swapCost, hw]
    rw [h1, h2]
    exact nav_decompose prices swap s.holdings

/-- C2 witness: full redemption of the single-holder fund, where holder 5
owns the entire supply of 100 shares. -/
theorem sell_full_redemption_witness :
    sell idealSwap 5 soleHolderFund.totalSupply soleHolderFund
      = .ok ({ soleHolderFund with
          holdings := soleHolderFund.holdings.map (fun p => (p.1, 0)),
          balances := subAmt soleHolderFund.balances 5
            soleHolderFund.totalSupply,
          totalSupply := 0 },
          sellProceeds idealSwap soleHolderFund soleHolderFund.totalSupply)
    ∧ (∀ a, lookupAmt
        (soleHolderFund.holdings.map (fun p => (p.1, 0))) a = 0)
    ∧ lookupAmt (subAmt soleHolderFund.balances 5
        soleHolderFund.totalSupply) 5 = 0
    ∧ (nav unitPrices soleHolderFund.holdings : Int)
        = (sellProceeds idealSwap soleHolderFund
              soleHolderFund.totalSupply : Int)
            * (unitPrices baseAsset : Int)
          + swapCost unitPrices idealSwap soleHolderFund
              soleHolderFund.totalSupply :=
  sell_full_redemption unitPrices idealSwap 5 soleHolderFund
    (by decide) (by decide)

/-- C9: the public sell pulls the caller's shares transferFrom-style — it
is rejected when the caller has not approved the fund itself for at least
the share amount; after approving the full balance, sell(fullBalance)
succeeds, leaves the caller's share balance at exactly zero and pays the
redemption proceeds; and whenever those proceeds are positive the caller's
base-currency balance strictly increases. -/
theorem sell_requires_self_approval :
    (∀ (swap : Nat → Nat → Nat → Nat) (holder amt : Nat) (s : FundState),
        lookupAmt s.allowances holder < amt →
        sellPublic swap holder amt s = .error .InsufficientBalance)
    ∧ (∀ (swap : Nat → Nat → Nat → Nat) (holder : Nat) (s : FundState),
        ∃ s', sellPublic swap holder (lookupAmt s.balances holder)
            (approveShares holder (lookupAmt s.balances holder) s)
          = .ok (s', sellProceeds swap
              (approveShares holder (lookupAmt s.balances holder) s)
              (lookupAmt s.balances holder))
          ∧ lookupAmt s'.balances holder = 0)
    ∧ (∀ (swap : Nat → Nat → Nat → Nat) (holder : Nat) (s : FundState),
        0 < sellProceeds swap
            (approveShares holder (lookupAmt s.balances holder) s)
            (lookupAmt s.balances holder) →
        ∃ s' pr, sellPublic swap holder (lookupAmt s.balances holder)
            (approveShares holder (lookupAmt s.balances holder) s)
          = .ok (s', pr)
          ∧ lookupAmt s'.balances holder = 0 ∧ 0 < pr) := by
  have hmain : ∀ (swap : Nat → Nat → Nat → Nat) (holder : Nat)
      (s : FundState),
      ∃ s', sellPublic swap holder (lookupAmt s.balances holder)
          (approveShares holder (lookupAmt s.balances holder) s)
        = .ok (s', sellProceeds swap
            (approveShares holder (lookupAmt s.balances holder) s)
            (lookupAmt s.balances holder))
        ∧ lookupAmt s'.balances holder = 0 := by
    intro swap holder s
    set bal := lookupAmt s.balances holder with hbal
    set a₁ := approveShares holder bal s with ha₁
    set s₁ : FundState := { a₁ with
        holdings := a₁.holdings.map
          (fun p => (p.1, p.2 - p.2 * bal / a₁.totalSupply)),
        balances := subAmt a₁.balances holder bal,
        totalSupply := a₁.totalSupply - bal } with hs₁
    refine ⟨{ s₁ with allowances := subAmt s₁.allowances holder bal },
      ?_, ?_⟩
    · refine (sellPublic_ok_iff swap holder bal a₁ _ _).mpr
        ⟨?_, s₁, ?_, rfl⟩
      · have : lookupAmt a₁.allowances holder = bal := by
          rw [ha₁]
          exact lookupAmt_setAmt_self s.allowances holder bal
        rw [this]
      · exact (sell_ok_iff swap holder bal a₁ s₁ _).mpr
          ⟨le_of_eq hbal, rfl, rfl⟩
    · show lookupAmt s₁.balances holder = 0
      rw [hs₁]
      show lookupAmt (subAmt a₁.balances holder bal) holder = 0
      rw [lookupAmt_subAmt_self]
      have : lookupAmt a₁.balances holder = bal := hbal.symm
      rw [this, Nat.sub_self]
  refine ⟨?_, hmain, ?_⟩
  · intro swap holder amt s h
    simp [sellPublic, h]
  · intro swap holder s hpr
    obtain ⟨s', h1, h2⟩ := hmain swap holder s
    exact ⟨s', _, h1, h2, hpr⟩

/-- C9 witness: on the single-holder fund, a public sell without approval
is rejected, and after approving the full balance the redemption succeeds
with strictly positive proceeds and a zero final share balance. -/
theorem sell_requires_self_approval_witness :
    (sellPublic idealSwap 5 100 soleHolderFund
        = .error .InsufficientBalance)
    ∧ (∃ s' pr, sellPublic idealSwap 5
          (lookupAmt soleHolderFund.balances 5)
          (approveShares 5 (lookupAmt soleHolderFund.balances 5)
            soleHolderFund)
        = .ok (s', pr)
        ∧ lookupAmt s'.balances 5 = 0 ∧ 0 < pr) :=
  ⟨sell_requires_self_approval.1 idealSwap 5 100 soleHolderFund (by decide),
    sell_requires_self_approval.2.2 idealSwap 5 soleHolderFund (by decide)⟩

/-- C10: createFund, called by an account whose approved fee allowance
covers the creation fee, appends exactly one fund to the registry —
getTotalFunds increases by one and the entry at index getTotalFunds − 1 is
the new fund — and the new fund's creator is the caller while its name and
ticker equal the arguments. -/
theorem createFund_appends_registry (caller : Nat) (name ticker : String)
    (tokens : List Nat) (fs : FactoryState)
    (hfee : fs.creationFee ≤ lookupAmt fs.feeAllowance caller) :
    ∃ fs', createFund caller name ticker tokens fs = .ok fs'
      ∧ getTotalFunds fs' = getTotalFunds fs + 1
      ∧ fs'.funds[getTotalFunds fs' - 1]?
          = some (newFund name ticker caller tokens)
      ∧ (newFund name ticker caller tokens).creator = caller
      ∧ (newFund name ticker caller tokens).fundName = name
      ∧ (newFund name ticker caller tokens).fundTicker = ticker := by
  refine ⟨{ fs with
      funds := fs.funds ++ [newFund name ticker caller tokens],
      feeAllowance := subAmt fs.feeAllowance caller fs.creationFee },
    ?_, ?_, ?_, rfl, rfl, rfl⟩
  · simp [createFund, Nat.not_lt.mpr hfee]
  · simp [getTotalFunds]
  · show (fs.funds ++ [newFund name ticker caller tokens])[
        (fs.funds ++ [newFund name ticker caller tokens]).length - 1]?
      = some (newFund name ticker caller tokens)
    simp

/-- C10 witness: creating the test fund through the ready factory, whose
caller 4 has approved exactly the creation fee. -/
theorem createFund_appends_registry_witness :
    ∃ fs', createFund 4 "Test Fund Multi-Asset" "TFMA" [1, 2, 3, 4]
        readyFactory = .ok fs'
      ∧ getTotalFunds fs' = getTotalFunds readyFactory + 1
      ∧ fs'.funds[getTotalFunds fs' - 1]?
          = some (newFund "Test Fund Multi-Asset" "TFMA" 4 [1, 2, 3, 4])
      ∧ (newFund "Test Fund Multi-Asset" "TFMA" 4 [1, 2, 3, 4]).creator = 4
      ∧ (newFund "Test Fund Multi-Asset" "TFMA" 4 [1, 2, 3, 4]).fundName
          = "Test Fund Multi-Asset"
      ∧ (newFund "Test Fund Multi-Asset" "TFMA" 4 [1, 2, 3, 4]).fundTicker
          = "TFMA" :=
  createFund_appends_registry 4 "Test Fund Multi-Asset" "TFMA" [1, 2, 3, 4]
    readyFactory (by decide)
